import Mathlib

/-!
Verification development for the `nokiahealth` / `withings` Go client
library.  The Go source is shallowly embedded: HTTP responses become a
structure carrying a status code and a read outcome for the body; the
`encoding/json` unmarshalling calls become oracle functions passed in as
parameters (the library code never inspects how the decoder works, only
its `Option`-shaped outcome); network calls (`http.Client.Do`) become
oracle functions from requests to response outcomes; `time.Now()` becomes
an explicit integer `now` in Unix seconds.  Go's `(value, err)` returns
become `Except`/`Option` values.
-/

namespace Nokiahealth

/-- Outcome of reading an HTTP response body stream (`ioutil.ReadAll`):
either a read error message or the full body bytes (modelled as a
`String`, byte-for-byte). -/
abbrev ReadOutcome := Except String String

deriving instance DecidableEq for Except

/-- Shallow embedding of `*http.Response` as used by this library: the
HTTP status code and the body stream's read outcome. -/
structure HttpResponse where
  statusCode : Int
  body : ReadOutcome
deriving DecidableEq, Repr

/-- The vendor envelope `{status: int, body: json}` decoded by
`WithingsRoundTripper.RoundTrip` (part_000 lines 186-189).  `body` holds
the raw bytes of the inner `body` JSON value (`json.RawMessage`). -/
structure Envelope where
  status : Int
  body : String
deriving DecidableEq, Repr

/-- Errors returned by `WithingsRoundTripper.RoundTrip`, one constructor
per `return nil, ...` site in part_000 lines 174-212:
`netError` for a failed `Do`, `readError` for a failed `ReadAll`,
`decodeError raw` for `json.Unmarshal` failure (carries the raw body),
`apiError status raw` for envelope status ≠ 0 (carries the vendor status
code and the full raw body). -/
inductive RTError where
  | netError (msg : String)
  | readError (msg : String)
  | decodeError (raw : String)
  | apiError (status : Int) (raw : String)
deriving DecidableEq, Repr

/-- An envelope decoder: the behaviour of `json.Unmarshal` into
`struct {Status int; Body json.RawMessage}`, as an oracle. `none` means
the unmarshal failed. -/
abbrev EnvDecoder := String → Option Envelope

/-- Shallow embedding of the response-processing part of
`WithingsRoundTripper.RoundTrip` (part_000 lines 180-211), applied to the
response obtained from the underlying `Do`:
if the HTTP status is not 200 the response is returned unchanged;
otherwise the body is read, decoded as an `Envelope`, and on envelope
status ≠ 0 the call fails with the vendor status code and the full raw
body; on envelope status 0 the response body is replaced by the inner
`body` bytes. -/
def withingsRoundTrip (unmarshal : EnvDecoder) (res : HttpResponse) :
    Except RTError HttpResponse :=
  if res.statusCode ≠ 200 then .ok res
  else
    match res.body with
    | .error e => .error (.readError e)
    | .ok resBody =>
      match unmarshal resBody with
      | none => .error (.decodeError resBody)
      | some response =>
        if response.status ≠ 0 then
          .error (.apiError response.status resBody)
        else
          .ok { res with body := .ok response.body }

/-- Shallow embedding of the whole `WithingsRoundTripper.RoundTrip`
(part_000 lines 174-212): perform the underlying `(*http.Client).Do`
(the oracle `net`), propagate its error, and unwrap the response. -/
def withingsRoundTripFull {α : Type} (net : α → Except String HttpResponse)
    (unmarshal : EnvDecoder) (req : α) : Except RTError HttpResponse :=
  match net req with
  | .error e => .error (.netError e)
  | .ok res => withingsRoundTrip unmarshal res

/-- An OAuth token as this library builds it (the `oauth2.Token` fields
the code reads and writes); `expiry` is an absolute instant in Unix
seconds. -/
structure Token where
  accessToken : String
  refreshToken : String
  tokenType : String
  expiry : Int
deriving DecidableEq, Repr

/-- The decoded token-endpoint response body: the anonymous struct of
`User.TokenContext` (part_003 lines 110-118). -/
structure TokenResponse where
  userid : String
  accessToken : String
  refreshToken : String
  expiresIn : Int
  scope : String
  csrfToken : String
  tokenType : String
deriving DecidableEq, Repr

/-- The form fields of the refresh POST built by `User.TokenContext`
(part_003 lines 84-89). -/
structure RefreshRequest where
  action : String
  clientId : String
  clientSecret : String
  grantType : String
  refreshToken : String
deriving DecidableEq, Repr

/-- A `withings.User` session (part_003 lines 19-23): the shared client
credentials it reads during refresh, and the mutable `OauthToken`. -/
structure User where
  clientId : String
  clientSecret : String
  token : Token
deriving DecidableEq, Repr

/-- Observable network calls made while serving one authenticated
`Send`: a refresh POST to the token endpoint, or the underlying data
request carrying the bearer access token attached to it. -/
inductive Event where
  | refreshCall (req : RefreshRequest)
  | dataCall (accessToken : String)
deriving DecidableEq, Repr

/-- Whether an event is a refresh POST to the token endpoint. -/
def Event.isRefreshCall : Event → Bool
  | .refreshCall _ => true
  | .dataCall _ => false

/-- Errors of `User.TokenContext`, one constructor per `return nil, ...`
site in part_003 lines 92-130: a `WithingsRoundTripper` failure, a
non-2XX token-endpoint reply (carrying code and body), a body-read
failure, or a JSON decode failure. -/
inductive TCError where
  | roundTrip (e : RTError)
  | non2xx (code : Int) (body : String)
  | readBody (msg : String)
  | decodeBody (raw : String)
deriving DecidableEq, Repr

/-- The oracles of the token exchange: the underlying
`http.DefaultClient` transport the refresh POST is sent through, the
envelope decoder used inside `WithingsRoundTripper`, and the
token-response decoder (`json.Unmarshal` into the struct of part_003
lines 110-118). -/
structure TokenEnv where
  net : RefreshRequest → Except String HttpResponse
  unmarshalEnv : EnvDecoder
  unmarshalTok : String → Option TokenResponse

/-- The refresh POST form of `User.TokenContext` (part_003 lines 84-89):
`action=requesttoken`, the client credentials, `grant_type=refresh_token`
and the session's current refresh token. -/
def mkRefreshRequest (u : User) : RefreshRequest :=
  { action := "requesttoken", clientId := u.clientId,
    clientSecret := u.clientSecret, grantType := "refresh_token",
    refreshToken := u.token.refreshToken }

/-- `body, _ := ioutil.ReadAll(res.Body)` with the error discarded
(part_003 line 105): a failed read leaves the empty byte slice. -/
def readIgnoringError : ReadOutcome → String
  | .ok s => s
  | .error _ => ""

/-- Wrap an integer to Go's `int64` two's-complement range: the value
in `[-9223372036854775808, 9223372036854775808)` (that is,
`[-2^63, 2^63)`) congruent to `n` modulo `2^64`.  Go defines signed
integer overflow to wrap. -/
def wrap64 (n : Int) : Int :=
  (n + 9223372036854775808) % 18446744073709551616 - 9223372036854775808

/-- `time.Duration(n) * time.Second` (part_003 line 133): the duration
in nanoseconds `n * 10^9`, computed as the wrapping `int64` multiply Go
performs (`time.Duration` is an `int64` count of nanoseconds). -/
def goSecondsDuration (n : Int) : Int := wrap64 (n * 1000000000)

/-- The Unix second of `t.Add(d)` for a whole-second instant `t` and a
duration of `d` nanoseconds: the second the resulting instant falls in
(floor division of the nanoseconds; `time.Time.Add` itself does not
wrap). -/
def addDurationSeconds (t d : Int) : Int := t + Int.fdiv d 1000000000

/-- Shallow embedding of `User.TokenContext` (part_003 lines 78-136).
If the stored token's expiry is strictly after `now`
(`u.OauthToken.Expiry.After(time.Now())`), the token is returned as-is
with no network traffic.  Otherwise one refresh POST is issued through
`WithingsRoundTripper`; on full success the session's token is replaced
wholesale by the decoded one, with expiry
`time.Now().Add(time.Duration(response.ExpiresIn) * time.Second)` — the
construction instant being the same `now` in this instantaneous model,
and the duration being the wrapping `int64` nanosecond multiply
(`goSecondsDuration`), which overflows for `expires_in` beyond about
9.2e9.
The event list records the refresh POST when one is issued; the
returned `User` is the session state after the call (Go mutates
`u.OauthToken` in place only on success). -/
def tokenContext (env : TokenEnv) (now : Int) (u : User) :
    List Event × Except TCError (Token × User) :=
  if u.token.expiry > now then ([], .ok (u.token, u))
  else
    let req := mkRefreshRequest u
    let evs := [Event.refreshCall req]
    match withingsRoundTripFull env.net env.unmarshalEnv req with
    | .error e => (evs, .error (.roundTrip e))
    | .ok res =>
      if res.statusCode ≠ 200 then
        (evs, .error (.non2xx res.statusCode (readIgnoringError res.body)))
      else
        match res.body with
        | .error e => (evs, .error (.readBody e))
        | .ok resBody =>
          match env.unmarshalTok resBody with
          | none => (evs, .error (.decodeBody resBody))
          | some r =>
            let newTok : Token :=
              { accessToken := r.accessToken, refreshToken := r.refreshToken,
                tokenType := r.tokenType,
                expiry := addDurationSeconds now (goSecondsDuration r.expiresIn) }
            (evs, .ok (newTok, { u with token := newTok }))

/-- Errors of one authenticated send: the token source failed (the
oauth2 transport aborts before any request is made), or the underlying
data request itself failed. -/
inductive SendError where
  | tokenError (e : TCError)
  | netError (msg : String)
deriving DecidableEq, Repr

/-- Shallow embedding of one authenticated request through
`User.RoundTrip` (part_003 lines 138-142) composed with the
`oauth2.Transport` it delegates to (each call builds a fresh
`oauth2.NewClient` over the user as token source, so the source is
consulted exactly once per request): obtain a token via `TokenContext`,
abort the send on failure, otherwise attach the access token as the
bearer credential and issue the data request.  `dataNet` is the
underlying transport for the data request, keyed by the bearer access
token the request is issued with.  Returns the event trace, the session
state after the call, and the outcome. -/
def send (env : TokenEnv) (dataNet : String → Except String HttpResponse)
    (now : Int) (u : User) :
    List Event × User × Except SendError HttpResponse :=
  match tokenContext env now u with
  | (evs, .error e) => (evs, u, .error (.tokenError e))
  | (evs, .ok (tok, u2)) =>
    (evs ++ [Event.dataCall tok.accessToken], u2,
      match dataNet tok.accessToken with
      | .error m => .error (.netError m)
      | .ok r => .ok r)

/-- Outcome of `Client.NewUserFromAccessToken` (part_003 lines 28-45):
either it delegated to `NewUserFromRefreshToken` with the supplied
refresh token (which performs a refresh exchange), or it returned the
assembled user directly, with no refresh. -/
inductive NewUserOutcome where
  | viaRefreshToken (refreshToken : String)
  | noRefresh (u : User)
deriving DecidableEq, Repr

/-- Shallow embedding of `Client.NewUserFromAccessToken` (part_003 lines
28-45).  A user is assembled whose token carries the supplied access
token, refresh token and expiry (the Go `oauth2.Token` literal sets no
TokenType, hence the empty string); then the code branches on
`u.OauthToken.Expiry.After(time.Now())`, i.e. `tokenExpiry > now`:
when the expiry is in the future it delegates to
`NewUserFromRefreshToken`, otherwise it returns the assembled user. -/
def newUserFromAccessToken (clientId clientSecret : String) (now : Int)
    (accessToken : String) (tokenExpiry : Int) (refreshToken : String) :
    NewUserOutcome :=
  let u : User :=
    { clientId := clientId, clientSecret := clientSecret,
      token := { accessToken := accessToken, refreshToken := refreshToken,
                 tokenType := "", expiry := tokenExpiry } }
  if tokenExpiry > now then .viaRefreshToken refreshToken
  else .noRefresh u

/-- A fixed token-exchange environment used to witness the lifecycle
theorems on concrete inputs: the token endpoint answers 200 with an
envelope of status 0 whose inner body decodes to the token response
`(access A, refresh B, expires_in 3600, type Bearer)`. -/
def testEnv : TokenEnv :=
  { net := fun _ => .ok ⟨200, .ok "WRAPPED"⟩,
    unmarshalEnv := fun s => if s = "WRAPPED" then some ⟨0, "TOKENJSON"⟩ else none,
    unmarshalTok := fun s =>
      if s = "TOKENJSON" then some ⟨"42", "A", "B", 3600, "sc", "csrf", "Bearer"⟩
      else none }

/-- A token-exchange environment identical to `testEnv` except that the
decoded response carries the huge `expires_in = 10^10`, a decodable
value at which Go's `int64` nanosecond multiply wraps. -/
def testEnvOverflow : TokenEnv :=
  { net := fun _ => .ok ⟨200, .ok "WRAPPED"⟩,
    unmarshalEnv := fun s => if s = "WRAPPED" then some ⟨0, "TOKENJSON"⟩ else none,
    unmarshalTok := fun s =>
      if s = "TOKENJSON" then
        some ⟨"42", "A", "B", 10000000000, "sc", "csrf", "Bearer"⟩
      else none }

/-- A concrete session whose stored token expires at Unix second 50. -/
def testUser : User :=
  { clientId := "cid", clientSecret := "sec",
    token := ⟨"oldA", "oldB", "Bearer", 50⟩ }

/-- A data transport for witnesses: always answers 200. -/
def testDataNet : String → Except String HttpResponse :=
  fun _ => .ok ⟨200, .ok "DATA"⟩

/-- Go-style result of an endpoint call: the response value together
with the returned error (`none` is Go's nil error). -/
abbrev GoResult (α : Type) := α × Option String

/-- The fields of the decoded `WorkoutResponse` that the processing code
of `User.GetWorkoutsCtx` inspects: the endpoint-level `Status`, the
`Error` message, and the optional `RawResponse` capture. -/
structure WorkoutResponse where
  status : Int
  error : String
  rawResponse : Option String
deriving DecidableEq, Repr

/-- The fields of the decoded `BodyMeasuresResp` that the processing
code of `User.GetBodyMeasuresCtx` inspects. -/
structure BodyMeasuresResp where
  status : Int
  error : String
  rawResponse : Option String
deriving DecidableEq, Repr

/-- Shallow embedding of the response-processing stage of
`User.GetWorkoutsCtx` (part_000 lines 460-475), from the point the HTTP
response is in hand.  The body is read — NOTE: on a read error the Go
code executes `return workoutResponse, nil` (line 463), discarding the
error — then the raw body is optionally captured, the body is decoded
(`json.Unmarshal` into the same value, which leaves the `RawResponse`
capture in place), and the endpoint-level status is checked.  The date
parsing of lines 477-500 cannot run on the read-error path and is
omitted. -/
def getWorkoutsProcess (saveRawResponse : Bool)
    (unmarshal : String → Option WorkoutResponse)
    (respBody : ReadOutcome) : GoResult WorkoutResponse :=
  let workoutResponse : WorkoutResponse := ⟨0, "", none⟩
  match respBody with
  | .error _ => (workoutResponse, none)
  | .ok body =>
    let workoutResponse :=
      if saveRawResponse then { workoutResponse with rawResponse := some body }
      else workoutResponse
    match unmarshal body with
    | none => (workoutResponse, some "unmarshal failure")
    | some w =>
      let workoutResponse := { w with rawResponse := workoutResponse.rawResponse }
      if workoutResponse.status ≠ 0 then
        (workoutResponse, some ("api returned an error: " ++ workoutResponse.error))
      else (workoutResponse, none)

/-- Shallow embedding of the response-processing stage of
`User.GetBodyMeasuresCtx` (part_000 lines 567-582), for contrast with
the workouts path: on a read error the Go code executes
`return bodyMeasureResponse, err` (line 570), propagating the read
error. -/
def getBodyMeasuresProcess (saveRawResponse : Bool)
    (unmarshal : String → Option BodyMeasuresResp)
    (respBody : ReadOutcome) : GoResult BodyMeasuresResp :=
  let bodyMeasureResponse : BodyMeasuresResp := ⟨0, "", none⟩
  match respBody with
  | .error e => (bodyMeasureResponse, some e)
  | .ok body =>
    let bodyMeasureResponse :=
      if saveRawResponse then { bodyMeasureResponse with rawResponse := some body }
      else bodyMeasureResponse
    match unmarshal body with
    | none => (bodyMeasureResponse, some "unmarshal failure")
    | some w =>
      let bodyMeasureResponse := { w with rawResponse := bodyMeasureResponse.rawResponse }
      if bodyMeasureResponse.status ≠ 0 then
        (bodyMeasureResponse, some ("api returned an error: " ++ bodyMeasureResponse.error))
      else (bodyMeasureResponse, none)

/-- The two fields the default path of `User.GetSleepMeasuresCtx` sets
on `SleepMeasuresQueryParam`, as Unix seconds. -/
structure SleepMeasuresQueryParam where
  startDate : Int
  endDate : Int
deriving DecidableEq, Repr

/-- Modelled from the spec: the wire name the reflection-based
`GetFieldName` lookup resolves for the `StartDate` field of
`SleepMeasuresQueryParam` — the parameter struct and its tags are not
among the provided sources; per the spec's external-interface section
the sleep query carries a `startdate` value. -/
def sleepStartDateField : String := "startdate"

/-- Modelled from the spec: the wire name `GetFieldName` resolves for
the `EndDate` field of `SleepMeasuresQueryParam` (see
`sleepStartDateField`). -/
def sleepEndDateField : String := "enddate"

/-- Shallow embedding of the query construction of
`User.GetSleepMeasuresCtx` (part_000 lines 602-618): `action=get`, and
when `params == nil` a default is built with `StartDate = time.Now()`
and `EndDate = time.Now().AddDate(0, 0, -1)` (one day earlier, 86400
seconds in this integer-seconds model); both dates are then rendered as
Unix seconds (`strconv.FormatInt(... .Unix(), 10)`). -/
def getSleepMeasuresQuery (now : Int)
    (params : Option SleepMeasuresQueryParam) : List (String × String) :=
  let params : SleepMeasuresQueryParam :=
    match params with
    | none => { startDate := now, endDate := now - 86400 }
    | some p => p
  [("action", "get"),
   (sleepStartDateField, toString params.startDate),
   (sleepEndDateField, toString params.endDate)]

/-- The URL-safe base64 alphabet of Go's `base64.URLEncoding`. -/
def b64Alphabet : List Char :=
  "ABCDEFGHIJKLMNOPQRSTUVWXYZabcdefghijklmnopqrstuvwxyz0123456789-_".toList

/-- The character the URL-safe base64 alphabet assigns to a 6-bit
value. -/
def b64Char (n : Nat) : Char := b64Alphabet.getD n 'A'

/-- URL-safe base64 of a byte list, with padding: the character stream
of `base64.URLEncoding.EncodeToString`, modelled from the library
documentation of `encoding/base64`. -/
def base64URLEncodeList : List Nat → List Char
  | [] => []
  | [b1] => [b64Char (b1 / 4), b64Char (b1 % 4 * 16), '=', '=']
  | [b1, b2] =>
    [b64Char (b1 / 4), b64Char (b1 % 4 * 16 + b2 / 16),
     b64Char (b2 % 16 * 4), '=']
  | b1 :: b2 :: b3 :: rest =>
    b64Char (b1 / 4) :: b64Char (b1 % 4 * 16 + b2 / 16) ::
    b64Char (b2 % 16 * 4 + b3 / 64) :: b64Char (b3 % 64) ::
    base64URLEncodeList rest

/-- `base64.URLEncoding.EncodeToString` as a `String`. -/
def base64URLEncode (bs : List Nat) : String :=
  String.mk (base64URLEncodeList bs)

/-- Shallow embedding of `generateRandomString` (part_000 lines 53-57):
a 64-byte buffer is filled by `crypto/rand.Read` — here the oracle value
`buf`, the buffer contents after the read; it has 64 bytes because
`make([]byte, 64)` zero-fills whatever the reader does not — and the
buffer is base64-URL-encoded.  The encoded string is returned even when
the read reported an error (`readErr`). -/
def generateRandomString (buf : List Nat) (readErr : Option String) :
    String × Option String :=
  (base64URLEncode buf, readErr)

/-- The `oauth2.Config` fields `Client.AuthCodeURL` consumes. -/
structure OAuthConfig where
  clientId : String
  redirectURL : String
  scopes : List String
  authURL : String
deriving DecidableEq, Repr

/-- An upper-case hexadecimal digit (as `net/url` percent-encoding
emits). -/
def hexDigit (n : Nat) : Char :=
  "0123456789ABCDEF".toList.getD n '0'

/-- Modelled from the library documentation of `net/url.QueryEscape`
for the ASCII inputs this client produces: unreserved characters
(letters, digits, `-` `_` `.` `~`) pass through, space becomes `+`,
anything else is percent-encoded. -/
def queryEscapeChar (c : Char) : List Char :=
  if c.isAlphanum ∨ c = '-' ∨ c = '_' ∨ c = '.' ∨ c = '~' then [c]
  else if c = ' ' then ['+']
  else ['%', hexDigit (c.toNat / 16 % 16), hexDigit (c.toNat % 16)]

/-- `net/url.QueryEscape` over a whole string. -/
def queryEscape (s : String) : String :=
  String.mk (s.toList.map queryEscapeChar).flatten

/-- Modelled from the dependency `golang.org/x/oauth2` (the pinned 2019
revision), `Config.AuthCodeURL`: the query parameters of the returned
authorization URL.  `response_type=code` and `client_id` always;
`redirect_uri`, `scope` (the scopes joined by spaces) and `state` only
when non-empty. -/
def authCodeURLParams (cfg : OAuthConfig) (state : String) :
    List (String × String) :=
  [("response_type", "code"), ("client_id", cfg.clientId)]
  ++ (if cfg.redirectURL ≠ "" then [("redirect_uri", cfg.redirectURL)] else [])
  ++ (if cfg.scopes ≠ [] then [("scope", String.intercalate " " cfg.scopes)] else [])
  ++ (if state ≠ "" then [("state", state)] else [])

/-- Ordered insertion by key, for the key-sorted rendering of
`url.Values.Encode`. -/
def insertParam (p : String × String) :
    List (String × String) → List (String × String)
  | [] => [p]
  | q :: qs => if p.1 ≤ q.1 then p :: q :: qs else q :: insertParam p qs

/-- `url.Values.Encode` renders parameters sorted by key. -/
def sortParams : List (String × String) → List (String × String)
  | [] => []
  | p :: ps => insertParam p (sortParams ps)

/-- The `k1=v1&k2=v2` rendering of `url.Values.Encode`, with both keys
and values query-escaped. -/
def encodeQuery (ps : List (String × String)) : String :=
  String.intercalate "&"
    (ps.map (fun p => queryEscape p.1 ++ "=" ++ queryEscape p.2))

/-- Modelled from the dependency `golang.org/x/oauth2`,
`Config.AuthCodeURL`: the authorization URL is the configured auth
endpoint, a `?` (or `&` when the endpoint already carries a query), and
the key-sorted encoded parameters. -/
def oauthAuthCodeURL (cfg : OAuthConfig) (state : String) : String :=
  cfg.authURL ++ (if cfg.authURL.contains '?' then "&" else "?")
    ++ encodeQuery (sortParams (authCodeURLParams cfg state))

/-- Shallow embedding of `Client.AuthCodeURL` (part_000 lines 107-110):
call the client's random generator (its outcome is the pair
`randResult` of generated string and error), and return — always, in
particular also when the generator reported an error — the
authorization URL built over the generated state, the state itself, and
the generator's error. -/
def clientAuthCodeURL (cfg : OAuthConfig)
    (randResult : String × Option String) :
    String × String × Option String :=
  (oauthAuthCodeURL cfg randResult.1, randResult.1, randResult.2)

/-- A concrete client configuration used to witness the authorization
URL theorem (the scope string is the comma-joined one `NewClient`
installs). -/
def testOAuthConfig : OAuthConfig :=
  { clientId := "cid", redirectURL := "https://cb.example/x",
    scopes := ["user.activity,user.metrics,user.info"],
    authURL := "https://account.withings.com/oauth2_user/authorize2" }

end Nokiahealth

namespace Nokiahealth

/-- C1: for an HTTP 200 response whose body decodes to an envelope with
nonzero status, `WithingsRoundTripper.RoundTrip` fails with an error
carrying the vendor status code and the full raw body, and returns no
response; moreover, among parsed envelopes, status 0 is the sole success
sentinel: the call succeeds iff the envelope status is 0. -/
theorem roundTrip_nonzero_status_fails (unmarshal : EnvDecoder)
    (res : HttpResponse) (raw : String) (env : Envelope)
    (h200 : res.statusCode = 200) (hbody : res.body = .ok raw)
    (henv : unmarshal raw = some env) :
    (env.status ≠ 0 →
      withingsRoundTrip unmarshal res = .error (.apiError env.status raw)) ∧
    ((∃ r, withingsRoundTrip unmarshal res = .ok r) ↔ env.status = 0) := by
  constructor
  · intro hne
    simp [withingsRoundTrip, h200, hbody, henv, hne]
  · constructor
    · rintro ⟨r, hr⟩
      by_contra hne
      simp [withingsRoundTrip, h200, hbody, henv, hne] at hr
    · intro hz
      refine ⟨{ res with body := .ok env.body }, ?_⟩
      simp [withingsRoundTrip, h200, hbody, henv, hz]

/-- Concrete witness for `roundTrip_nonzero_status_fails`: a 200 response
whose body decodes to an envelope with vendor status 503. -/
theorem roundTrip_nonzero_status_fails_witness :
    withingsRoundTrip
      (fun s => if s = "RAW" then some ⟨503, "INNER"⟩ else none)
      ⟨200, .ok "RAW"⟩
      = .error (.apiError 503 "RAW") :=
  (roundTrip_nonzero_status_fails
      (fun s => if s = "RAW" then some ⟨503, "INNER"⟩ else none)
      ⟨200, .ok "RAW"⟩ "RAW" ⟨503, "INNER"⟩
      rfl rfl (by decide)).1 (by decide)

/-- C2: for an HTTP 200 response whose body decodes to an envelope with
status 0 and inner body `B`, the unwrapper returns the response with its
effective body replaced by exactly the inner bytes `B`; all other fields
are unchanged. -/
theorem roundTrip_success_unwraps (unmarshal : EnvDecoder)
    (res : HttpResponse) (raw B : String)
    (h200 : res.statusCode = 200) (hbody : res.body = .ok raw)
    (henv : unmarshal raw = some ⟨0, B⟩) :
    withingsRoundTrip unmarshal res = .ok { res with body := .ok B } := by
  simp [withingsRoundTrip, h200, hbody, henv]

/-- Concrete witness for `roundTrip_success_unwraps`: a 200 response with
envelope status 0 and inner body bytes distinct from the outer ones. -/
theorem roundTrip_success_unwraps_witness :
    withingsRoundTrip
      (fun s => if s = "OUTER" then some ⟨0, "INNER"⟩ else none)
      ⟨200, .ok "OUTER"⟩
      = .ok ⟨200, .ok "INNER"⟩ :=
  roundTrip_success_unwraps
    (fun s => if s = "OUTER" then some ⟨0, "INNER"⟩ else none)
    ⟨200, .ok "OUTER"⟩ "OUTER" "INNER" rfl rfl (by decide)

/-- C6: a response with HTTP status ≠ 200 passes through unchanged (same
status code, same unread body), for every envelope decoder — the decoder
is never consulted. -/
theorem roundTrip_non200_passthrough (res : HttpResponse)
    (hne : res.statusCode ≠ 200) :
    ∀ unmarshal : EnvDecoder, withingsRoundTrip unmarshal res = .ok res := by
  intro unmarshal
  simp [withingsRoundTrip, hne]

/-- Concrete witness for `roundTrip_non200_passthrough`: a 404 response
with a body whose read would fail passes through untouched even under a
decoder that rejects everything. -/
theorem roundTrip_non200_passthrough_witness :
    withingsRoundTrip (fun _ => none) ⟨404, .error "unread"⟩
      = .ok ⟨404, .error "unread"⟩ :=
  roundTrip_non200_passthrough ⟨404, .error "unread"⟩ (by decide) (fun _ => none)

/-- Helper: when the stored token is expired, `TokenContext` emits
exactly the single refresh POST, whatever the exchange outcome. -/
theorem tokenContext_expired_events (env : TokenEnv) (now : Int) (u : User)
    (hexp : u.token.expiry ≤ now) :
    (tokenContext env now u).1 = [.refreshCall (mkRefreshRequest u)] := by
  unfold tokenContext
  rw [if_neg (by omega)]
  dsimp only
  split
  · rfl
  · split
    · rfl
    · split
      · rfl
      · split
        · rfl
        · rfl

/-- Helper: a successful `TokenContext` leaves the session holding
exactly the token it returned (the wholesale replacement of
`u.OauthToken`). -/
theorem tokenContext_ok_token_replaced (env : TokenEnv) (now : Int) (u : User)
    (tok : Token) (u2 : User)
    (h : (tokenContext env now u).2 = .ok (tok, u2)) : u2.token = tok := by
  simp only [tokenContext] at h
  by_cases hv : u.token.expiry > now
  · rw [if_pos hv] at h
    simp only [Except.ok.injEq, Prod.mk.injEq] at h
    rw [← h.2, ← h.1]
  · rw [if_neg hv] at h
    split at h
    · simp at h
    · split at h
      · simp at h
      · split at h
        · simp at h
        · split at h
          · simp at h
          · simp only [Except.ok.injEq, Prod.mk.injEq] at h
            rw [← h.2, ← h.1]

/-- Helper: unfolding one `send` whose token source failed: the trace is
the token source's trace, the session is unchanged, and the send aborts
with the token error. -/
theorem send_of_error (env : TokenEnv)
    (dataNet : String → Except String HttpResponse) (now : Int) (u : User)
    (evs : List Event) (e : TCError)
    (h : tokenContext env now u = (evs, .error e)) :
    send env dataNet now u = (evs, u, .error (.tokenError e)) := by
  unfold send
  rw [h]

/-- Helper: unfolding one `send` whose token source succeeded: the data
request carrying the obtained access token follows the token source's
trace, and the session is the token source's updated one. -/
theorem send_of_ok (env : TokenEnv)
    (dataNet : String → Except String HttpResponse) (now : Int) (u : User)
    (evs : List Event) (tok : Token) (u2 : User)
    (h : tokenContext env now u = (evs, .ok (tok, u2))) :
    (send env dataNet now u).1 = evs ++ [Event.dataCall tok.accessToken] ∧
    (send env dataNet now u).2.1 = u2 := by
  unfold send
  rw [h]
  exact ⟨rfl, rfl⟩

/-- C3: a `Send` on a session whose stored token has `expiry ≤ now`
performs exactly one refresh POST; when the refresh succeeds the trace
is exactly the refresh POST followed by the one data request, which
carries the refreshed access token (so the refresh completes, replacing
the session's token, before the data request is issued); when the
refresh fails, no data request is issued at all. -/
theorem send_expired_refreshes_once (env : TokenEnv)
    (dataNet : String → Except String HttpResponse) (now : Int) (u : User)
    (hexp : u.token.expiry ≤ now) :
    ((send env dataNet now u).1.countP Event.isRefreshCall = 1) ∧
    (∀ tok u2, (tokenContext env now u).2 = .ok (tok, u2) →
      (send env dataNet now u).1 =
        [.refreshCall (mkRefreshRequest u), .dataCall tok.accessToken] ∧
      (send env dataNet now u).2.1.token = tok) ∧
    (∀ e, (tokenContext env now u).2 = .error e →
      (send env dataNet now u).1 = [.refreshCall (mkRefreshRequest u)]) := by
  rcases htc : tokenContext env now u with ⟨evs, res⟩
  have hevs2 : evs = [Event.refreshCall (mkRefreshRequest u)] := by
    have h := tokenContext_expired_events env now u hexp
    rw [htc] at h
    exact h
  subst hevs2
  refine ⟨?_, ?_, ?_⟩
  · cases res with
    | error e =>
      rw [send_of_error env dataNet now u _ e htc]
      simp [Event.isRefreshCall, List.countP_cons, List.countP_nil]
    | ok v =>
      obtain ⟨tok, u2⟩ := v
      rw [(send_of_ok env dataNet now u _ tok u2 htc).1]
      simp [Event.isRefreshCall, List.countP_cons, List.countP_nil]
  · intro tok u2 hok
    have hres : res = .ok (tok, u2) := hok
    subst hres
    have hs := send_of_ok env dataNet now u _ tok u2 htc
    have hrepl : u2.token = tok :=
      tokenContext_ok_token_replaced env now u tok u2 (by rw [htc])
    refine ⟨?_, ?_⟩
    · rw [hs.1]
      rfl
    · rw [hs.2, hrepl]
  · intro e herr
    have hres : res = .error e := herr
    subst hres
    rw [send_of_error env dataNet now u _ e htc]

/-- Witness for `send_expired_refreshes_once`: the concrete session
expiring at second 50, sent at second 100 against the mock token
endpoint, traces the refresh POST and then the data request carrying the
refreshed access token A. -/
theorem send_expired_refreshes_once_witness :
    (send testEnv testDataNet 100 testUser).1 =
      [.refreshCall (mkRefreshRequest testUser), .dataCall "A"] :=
  ((send_expired_refreshes_once testEnv testDataNet 100 testUser (by decide)).2.1
    ⟨"A", "B", "Bearer", 3700⟩
    { clientId := "cid", clientSecret := "sec",
      token := ⟨"A", "B", "Bearer", 3700⟩ }
    (by decide)).1

/-- C4: a `Send` on a session whose stored token has `expiry > now`
issues exactly the one data request, carrying the stored access token;
no refresh POST occurs and the session state is unchanged. -/
theorem send_valid_no_refresh (env : TokenEnv)
    (dataNet : String → Except String HttpResponse) (now : Int) (u : User)
    (hval : u.token.expiry > now) :
    (send env dataNet now u).1 = [.dataCall u.token.accessToken] ∧
    (send env dataNet now u).2.1 = u := by
  have htc : tokenContext env now u = ([], .ok (u.token, u)) := by
    unfold tokenContext
    rw [if_pos hval]
  constructor <;> simp [send, htc]

/-- Witness for `send_valid_no_refresh`: the concrete session expiring
at second 50, sent at second 10, issues only the data request with its
stored access token. -/
theorem send_valid_no_refresh_witness :
    (send testEnv testDataNet 10 testUser).1 = [.dataCall "oldA"] ∧
    (send testEnv testDataNet 10 testUser).2.1 = testUser :=
  send_valid_no_refresh testEnv testDataNet 10 testUser (by decide)

/-- Helper: as long as the `int64` nanosecond multiply does not wrap
(`|n| ≤ 9223372036`, i.e. `|n * 10^9| < 2^63`), adding the Go duration
of `n` seconds to a whole-second instant lands exactly `n` seconds
later. -/
theorem addDurationSeconds_of_small (t n : Int)
    (h1 : -9223372036 ≤ n) (h2 : n ≤ 9223372036) :
    addDurationSeconds t (goSecondsDuration n) = t + n := by
  unfold addDurationSeconds goSecondsDuration wrap64
  have hmod : (n * 1000000000 + 9223372036854775808) % 18446744073709551616
      = n * 1000000000 + 9223372036854775808 := by
    apply Int.emod_eq_of_lt
    · omega
    · omega
  rw [hmod]
  have hcancel : n * 1000000000 + 9223372036854775808 - 9223372036854775808
      = n * 1000000000 := by ring
  rw [hcancel, Int.mul_fdiv_cancel]
  omega

/-- C5 (amended): when the refresh exchange succeeds and its unwrapped
response decodes to a token response `r` whose `expires_in` keeps the
`int64` nanosecond multiply in range (`|expires_in| ≤ 9223372036`, in
particular every realistic token lifetime), the token built by
`TokenContext` has access token `r.accessToken`, refresh token
`r.refreshToken`, token type `r.tokenType`, and expiry exactly
`now + r.expiresIn` seconds (the construction instant plus
`expires_in`, so in particular within any 1 s tolerance of it), and the
session stores that same token.  Beyond that range the multiply wraps
(see `tokenContext_refresh_expiry_wraps`). -/
theorem tokenContext_refresh_token_fields (env : TokenEnv) (now : Int)
    (u : User) (res : HttpResponse) (b : String) (r : TokenResponse)
    (hexp : u.token.expiry ≤ now)
    (hrt : withingsRoundTripFull env.net env.unmarshalEnv (mkRefreshRequest u)
           = .ok res)
    (h200 : res.statusCode = 200)
    (hbody : res.body = .ok b)
    (htok : env.unmarshalTok b = some r)
    (hlo : -9223372036 ≤ r.expiresIn)
    (hhi : r.expiresIn ≤ 9223372036) :
    (tokenContext env now u).2 = .ok
      ({ accessToken := r.accessToken, refreshToken := r.refreshToken,
         tokenType := r.tokenType, expiry := now + r.expiresIn },
       { u with token :=
         { accessToken := r.accessToken, refreshToken := r.refreshToken,
           tokenType := r.tokenType, expiry := now + r.expiresIn } }) := by
  unfold tokenContext
  rw [if_neg (by omega)]
  dsimp only
  rw [hrt]
  simp [h200, hbody, htok, addDurationSeconds_of_small now r.expiresIn hlo hhi]

/-- C5 counterexample: with the decodable `expires_in = 10^10`, the Go
`int64` multiply `time.Duration(10^10) * time.Second` wraps, and the
refreshed token's expiry lands at Unix second `-8446743974` — about 267
years before 1970 — instead of the claimed
`now + expires_in = 10000000100`: the claimed expiry equality fails at
this claim-covered input. -/
theorem tokenContext_refresh_expiry_wraps :
    (tokenContext testEnvOverflow 100 testUser).2 = .ok
      (⟨"A", "B", "Bearer", -8446743974⟩,
       { clientId := "cid", clientSecret := "sec",
         token := ⟨"A", "B", "Bearer", -8446743974⟩ }) ∧
    (-8446743974 : Int) ≠ 100 + 10000000000 :=
  ⟨by decide, by decide⟩

/-- Witness for `tokenContext_refresh_token_fields`: against the mock
token endpoint answering `(A, B, 3600, Bearer)` at second 100, the
refreshed token is `(A, B, Bearer)` expiring at second 3700. -/
theorem tokenContext_refresh_token_fields_witness :
    (tokenContext testEnv 100 testUser).2 = .ok
      (⟨"A", "B", "Bearer", 3700⟩,
       { clientId := "cid", clientSecret := "sec",
         token := ⟨"A", "B", "Bearer", 3700⟩ }) :=
  tokenContext_refresh_token_fields testEnv 100 testUser
    ⟨200, .ok "TOKENJSON"⟩ "TOKENJSON"
    ⟨"42", "A", "B", 3600, "sc", "csrf", "Bearer"⟩
    (by decide) (by decide) rfl rfl (by decide) (by decide) (by decide)

/-- C9: `Client.NewUserFromAccessToken` delegates to
`NewUserFromRefreshToken` (performing a refresh) exactly when the
supplied expiry is still in the future, and returns the assembled user
with the supplied token and no refresh exactly when the token is already
expired — the inverted comparison. -/
theorem newUserFromAccessToken_refresh_inverted (cid csec : String)
    (now : Int) (accessToken : String) (tokenExpiry : Int)
    (refreshToken : String) :
    (newUserFromAccessToken cid csec now accessToken tokenExpiry refreshToken
        = .viaRefreshToken refreshToken ↔ tokenExpiry > now) ∧
    (newUserFromAccessToken cid csec now accessToken tokenExpiry refreshToken
        = .noRefresh ⟨cid, csec, ⟨accessToken, refreshToken, "", tokenExpiry⟩⟩
      ↔ ¬ tokenExpiry > now) := by
  by_cases h : tokenExpiry > now <;> simp [newUserFromAccessToken, h]

/-- C7 (documenting the code defect): when reading the response body
fails, the processing stage of `GetWorkoutsCtx` returns a nil error —
the read failure is discarded and never surfaces to the caller — while
the analogous stage of `GetBodyMeasuresCtx` propagates the read error
as a non-nil one. -/
theorem getWorkouts_read_error_swallowed :
    getWorkoutsProcess true (fun _ => none) (.error "read failed")
      = (⟨0, "", none⟩, none) ∧
    getBodyMeasuresProcess true (fun _ => none) (.error "read failed")
      = (⟨0, "", none⟩, some "read failed") :=
  ⟨rfl, rfl⟩

/-- C8 (documenting the code defect): with nil params at Unix second
1700000000, the sleep query renders `startdate` as now itself and
`enddate` as now minus one day — the two defaults are swapped relative
to a last-24-hours window, and the resulting start instant is not ≤ the
end instant. -/
theorem getSleepMeasures_default_swapped :
    getSleepMeasuresQuery 1700000000 none
      = [("action", "get"), ("startdate", "1700000000"),
         ("enddate", "1699913600")] ∧
    ¬ ((1700000000 : Int) ≤ 1699913600) :=
  ⟨rfl, by decide⟩

/-- Helper: the base64 encoding of a nonempty byte list is a nonempty
character list. -/
theorem base64URLEncodeList_ne_nil (b : Nat) (rest : List Nat) :
    base64URLEncodeList (b :: rest) ≠ [] := by
  match rest with
  | [] => simp [base64URLEncodeList]
  | [b2] => simp [base64URLEncodeList]
  | b2 :: b3 :: rest2 => simp [base64URLEncodeList]

/-- C10: for every outcome of the client's random generator (the final
64-byte buffer contents together with the reported read error),
`Client.AuthCodeURL` returns the generated state string as its state
result and the authorization URL built over that same state; the
generated state is never empty, so the state is embedded among the
query parameters of that URL; and when the generator reports an error
the same URL and state are returned alongside it rather than empty
values. -/
theorem authCodeURL_returns_generated_state (cfg : OAuthConfig)
    (buf : List Nat) (readErr : Option String) (hbuf : buf.length = 64) :
    clientAuthCodeURL cfg (generateRandomString buf readErr)
      = (oauthAuthCodeURL cfg (base64URLEncode buf),
         base64URLEncode buf, readErr) ∧
    base64URLEncode buf ≠ "" ∧
    ("state", base64URLEncode buf)
      ∈ authCodeURLParams cfg (base64URLEncode buf) := by
  have hne : base64URLEncode buf ≠ "" := by
    cases buf with
    | nil => simp at hbuf
    | cons b rest =>
      intro hcon
      exact base64URLEncodeList_ne_nil b rest (congrArg String.data hcon)
  refine ⟨rfl, hne, ?_⟩
  simp [authCodeURLParams, hne]

/-- Witness for `authCodeURL_returns_generated_state`: the zero-filled
64-byte buffer with a reported generator error still yields the full
authorization URL and the (nonempty, embedded) encoded state alongside
the error. -/
theorem authCodeURL_returns_generated_state_witness :
    clientAuthCodeURL testOAuthConfig
        (generateRandomString (List.replicate 64 0)
          (some "entropy source failed"))
      = (oauthAuthCodeURL testOAuthConfig
           (base64URLEncode (List.replicate 64 0)),
         base64URLEncode (List.replicate 64 0),
         some "entropy source failed") ∧
    base64URLEncode (List.replicate 64 0) ≠ "" ∧
    ("state", base64URLEncode (List.replicate 64 0))
      ∈ authCodeURLParams testOAuthConfig
          (base64URLEncode (List.replicate 64 0)) :=
  authCodeURL_returns_generated_state testOAuthConfig (List.replicate 64 0)
    (some "entropy source failed") (by decide)

end Nokiahealth
